import Mathlib

/-!
Verification of the spaced-repetition scheduler and review-session state
machine of the knowledge-galaxy flashcard app, shallowly embedded from
`src/App.tsx`.

Modelling conventions:
* Database rows of the `knowledge_nodes` and `flashcards` tables are
  records; a query result set is a `List` of rows in arrival order.
* Nullable columns are `Option`; JavaScript's `x || 0` / `x || 'note'`
  defaulting (which also treats `0` and `""` as falsy) is modelled
  explicitly.
* Timestamps are integers in milliseconds; `new Date()` is the parameter
  `now`, and `nextDate.setDate(nextDate.getDate() + n)` advances the
  timestamp by `n` whole days (`n * msPerDay`); calendar irregularities
  (DST shifts) are out of scope, as the spec speaks only in days.
* `Math.ceil` on the exact product `currentInterval * 2.5` is the rational
  ceiling (the JS double product is exact for every interval the app can
  produce).
* React state (`reviewQueue`, `currentCardIndex`, `isFlipped`) is the
  record `ReviewState`; an event handler is a function from the old state
  (and its inputs) to the new state.
-/

namespace KnowledgeGalaxy

/-- A row of the `knowledge_nodes` table, with the columns the reviewed
logic touches.  `category`, `interval_days` and `next_review_at` are
nullable in the schema (freshly inserted nodes in `handleAnalyze` set none
of them). -/
structure NodeRow where
  id : Nat
  category : Option String
  is_mastered : Bool
  interval_days : Option Nat
  next_review_at : Option Int
deriving DecidableEq, Repr

/-- A raw row of the `flashcards` table, as returned by
`supabase.from('flashcards').select('*')`. -/
structure CardRow where
  id : Nat
  node_id : Nat
  front : String
  back : String
deriving DecidableEq, Repr

/-- The joined node data attached to a queue entry
(the `knowledge_nodes` field of the `Flashcard` type in `App.tsx`). -/
structure KnowledgeNodesJoin where
  is_mastered : Bool
  category : String
deriving DecidableEq, Repr

/-- The `Flashcard` type of `App.tsx`: a card row together with an
optionally resolved `knowledge_nodes` join. -/
structure Flashcard where
  id : Nat
  node_id : Nat
  front : String
  back : String
  knowledge_nodes : Option KnowledgeNodesJoin
deriving DecidableEq, Repr

/-- The review-mode React state: `reviewQueue`, `currentCardIndex`,
`isFlipped` (App.tsx lines 34-36). -/
structure ReviewState where
  reviewQueue : List Flashcard
  currentCardIndex : Nat
  isFlipped : Bool
deriving DecidableEq, Repr

/-- A grading outcome: the `'remember' | 'forget'` action of
`handleReviewAction`. -/
inductive Outcome
  | remember
  | forget
deriving DecidableEq, Repr

/-- One day in milliseconds, the unit by which
`nextDate.setDate(nextDate.getDate() + n)` advances the timestamp. -/
def msPerDay : Int := 86400000

/-- Advance a timestamp by `n` whole days. -/
def addDays (t : Int) (n : Nat) : Int := t + n * msPerDay

/-- `Math.ceil` on an exact rational. -/
def mathCeil (q : ℚ) : Int := ⌈q⌉

/-- JavaScript `oldNode?.interval_days || 0`: the outer `Option` is the
`.single()` lookup (none = no row), the inner one the nullable column;
both defaults, and the falsy value `0` itself, give `0`. -/
def jsOrZero : Option (Option Nat) → Nat
  | some (some n) => n
  | some none => 0
  | none => 0

/-- SQL `next_review_at <= now` as used by `.lte('next_review_at', nowISO)`:
a NULL column never satisfies the comparison. -/
def sqlLte : Option Int → Int → Bool
  | some t, now => t ≤ now
  | none, _ => false

/-- JavaScript `(c || 'note').toLowerCase()` on the nullable `category`
column: `null` and the falsy empty string default to `'note'`. -/
def categoryOrNote : Option String → String
  | some c => if c = "" then "note".toLower else c.toLower
  | none => "note".toLower

/-- The interval-update rule of `handleReviewAction` (App.tsx 252-260):
`nextInterval` starts at 1; on `'remember'`,
`currentInterval = oldNode?.interval_days || 0` and
`nextInterval = currentInterval === 0 ? 1 : Math.ceil(currentInterval * 2.5)`. -/
def nextIntervalDays (oldIntervalLookup : Option (Option Nat)) : Outcome → Nat
  | .remember =>
      let currentInterval := jsOrZero oldIntervalLookup
      if currentInterval = 0 then 1 else (mathCeil ((currentInterval : ℚ) * 2.5)).toNat
  | .forget => 1

/-- Result of one scheduler invocation: the new interval and the next due
timestamp. -/
structure GradeComputation where
  newIntervalDays : Nat
  nextDueAt : Int
deriving DecidableEq, Repr

/-- The Review Scheduler: the pure computation performed by
`handleReviewAction` (App.tsx 251-263) before the persistence write —
the new interval by `nextIntervalDays`, and
`nextDate = new Date(); nextDate.setDate(nextDate.getDate() + nextInterval)`. -/
def scheduler (oldIntervalLookup : Option (Option Nat)) (action : Outcome)
    (now : Int) : GradeComputation :=
  let nextInterval := nextIntervalDays oldIntervalLookup action
  ⟨nextInterval, addDays now nextInterval⟩

/-- `.select('interval_days').eq('id', nid).single()`: the first row of the
node table with the given id, if any. -/
def dbFindNode (nodes : List NodeRow) (nid : Nat) : Option NodeRow :=
  nodes.find? (fun n => n.id = nid)

/-- `.update({ next_review_at, interval_days }).eq('id', nid)`: rewrite the
two scheduled columns of every row with the given id, leaving all other
columns (in particular `is_mastered`) untouched. -/
def dbUpdateNode (nodes : List NodeRow) (nid : Nat) (due : Int) (iv : Nat) :
    List NodeRow :=
  nodes.map (fun n =>
    if n.id = nid then { n with next_review_at := some due, interval_days := some iv }
    else n)

/-- `handleReviewAction` (App.tsx 247-273), with the persistence write's
success made explicit: `persistOk = false` means the `.update` call failed
and left the table unchanged (the handler never reads its result either
way).  Returns the updated table and the new React state: the handler
returns early when `reviewQueue[currentCardIndex]` is undefined; otherwise
it computes the schedule, issues the write, resets `isFlipped`, and either
advances `currentCardIndex` or empties the queue. -/
def handleReviewAction (persistOk : Bool) (nodes : List NodeRow) (now : Int)
    (s : ReviewState) (action : Outcome) : List NodeRow × ReviewState :=
  match s.reviewQueue[s.currentCardIndex]? with
  | none => (nodes, s)
  | some currentCard =>
      let oldNode := dbFindNode nodes currentCard.node_id
      let comp := scheduler (oldNode.map (·.interval_days)) action now
      let nodes' := if persistOk
        then dbUpdateNode nodes currentCard.node_id comp.nextDueAt comp.newIntervalDays
        else nodes
      let s' := { s with isFlipped := false }
      if s.currentCardIndex < s.reviewQueue.length - 1
      then (nodes', { s' with currentCardIndex := s.currentCardIndex + 1 })
      else (nodes', { s' with reviewQueue := [] })

/-- Assemble a review-queue entry (`fetchReviewCards`'s `.map`, App.tsx
122-131): the raw card spread together with a synthesised
`knowledge_nodes` object whose `is_mastered` is hard-coded `false` and
whose category is `(node?.category || 'note').toLowerCase()`. -/
def mkQueueEntry (c : CardRow) (node : Option NodeRow) : Flashcard :=
  { id := c.id, node_id := c.node_id, front := c.front, back := c.back,
    knowledge_nodes := some
      { is_mastered := false,
        category := categoryOrNote (node.bind (·.category)) } }

/-- Forget the synthesised join, recovering the raw card row underneath a
queue entry. -/
def stripEntry (e : Flashcard) : CardRow :=
  { id := e.id, node_id := e.node_id, front := e.front, back := e.back }

/-- `fetchReviewCards` (App.tsx 101-139): `cards` is the (already limited)
`flashcards` result set and `nodes` the `knowledge_nodes` table.  On an
empty card set the handler returns early after clearing the queue;
otherwise `nodesData` is the nodes restricted to the fetched cards' ids
and to `next_review_at <= now`, `validCards` keeps exactly the cards whose
node is found there, and the queue, cursor and flip flag are reset. -/
def fetchReviewCards (nodes : List NodeRow) (cards : List CardRow) (now : Int)
    (s : ReviewState) : ReviewState :=
  if cards.isEmpty then { s with reviewQueue := [] }
  else
    let nodeIds := cards.map (·.node_id)
    let nodesData := nodes.filter
      (fun n => nodeIds.contains n.id && sqlLte n.next_review_at now)
    let validCards := (cards.filter
        (fun c => (nodesData.find? (fun n => n.id = c.node_id)).isSome)).map
      (fun c => mkQueueEntry c (nodesData.find? (fun n => n.id = c.node_id)))
    { reviewQueue := validCards, currentCardIndex := 0, isFlipped := false }

/-- A click on the review card (App.tsx 397,
`onClick={() => setIsFlipped(!isFlipped)}`): the card is only rendered
while `reviewQueue.length > 0`, and the click toggles the flip flag. -/
def revealClick (s : ReviewState) : ReviewState :=
  if s.reviewQueue.isEmpty then s else { s with isFlipped := !s.isFlipped }

/-- A click on a grade button (App.tsx 431-434): the two buttons are
rendered only while `reviewQueue.length > 0` and `isFlipped` holds
(`{isFlipped && <div>...</div>}`), so outside that state the event cannot
fire; when they are rendered the click runs `handleReviewAction`. -/
def gradeClick (persistOk : Bool) (nodes : List NodeRow) (now : Int)
    (s : ReviewState) (action : Outcome) : List NodeRow × ReviewState :=
  if !s.reviewQueue.isEmpty && s.isFlipped
  then handleReviewAction persistOk nodes now s action
  else (nodes, s)

/-! Concrete sample data used by the witnesses. -/

def sampleNode : NodeRow :=
  { id := 1, category := some "english", is_mastered := false,
    interval_days := some 4, next_review_at := some 0 }

def sampleNode2 : NodeRow :=
  { id := 2, category := none, is_mastered := false,
    interval_days := none, next_review_at := some 0 }

def sampleCard : CardRow := { id := 10, node_id := 1, front := "f", back := "b" }

def sampleCard2 : CardRow := { id := 11, node_id := 2, front := "g", back := "c" }

def sampleEntry : Flashcard := mkQueueEntry sampleCard (some sampleNode)

def sampleEntry2 : Flashcard := mkQueueEntry sampleCard2 (some sampleNode2)

def sampleShowingFalse : ReviewState :=
  { reviewQueue := [sampleEntry], currentCardIndex := 0, isFlipped := false }

/-! Theorems. -/

/-- Claim C1: for outcome Remembered, the scheduler returns 1 when the
previous interval is 0 and the ceiling of `previousIntervalDays * 2.5`
when it is positive. -/
theorem remembered_interval_rule (p : Nat) (now : Int) :
    (p = 0 → (scheduler (some (some p)) Outcome.remember now).newIntervalDays = 1) ∧
    (p ≠ 0 → ((scheduler (some (some p)) Outcome.remember now).newIntervalDays : Int)
        = ⌈(p : ℚ) * 2.5⌉) := by
  constructor
  · intro h; subst h; rfl
  · intro h
    simp only [scheduler, nextIntervalDays, jsOrZero, mathCeil, if_neg h]
    exact Int.toNat_of_nonneg (Int.ceil_nonneg (by positivity))

/-- Witness for C1 at the spec's own example `previousIntervalDays = 4`. -/
theorem remembered_interval_rule_witness :
    (4 : Nat) ≠ 0 ∧
    ((scheduler (some (some 4)) Outcome.remember 0).newIntervalDays : Int)
      = ⌈(4 : ℚ) * 2.5⌉ :=
  ⟨by decide, (remembered_interval_rule 4 0).2 (by decide)⟩

/-- Claim C2: outcome Forgotten always yields interval 1, independent of
the stored interval (or of the lookup failing altogether). -/
theorem forgotten_interval_reset (p : Nat) (lookup : Option (Option Nat)) (now : Int) :
    (scheduler (some (some p)) Outcome.forget now).newIntervalDays = 1 ∧
    (scheduler lookup Outcome.forget now).newIntervalDays = 1 :=
  ⟨rfl, rfl⟩

/-- Claim C5: the next-due timestamp produced by a grade is always the
instant of computation plus `newIntervalDays` days, for any outcome. -/
theorem next_due_is_now_plus_interval (lookup : Option (Option Nat))
    (action : Outcome) (now : Int) :
    (scheduler lookup action now).nextDueAt
      = now + (scheduler lookup action now).newIntervalDays * msPerDay := rfl

/-- Helper: whenever the current card exists, `handleReviewAction` resets
the flip flag and either advances the cursor or empties the queue,
irrespective of the outcome and of the persistence write. -/
theorem handleReviewAction_snd (persistOk : Bool) (nodes : List NodeRow)
    (now : Int) (s : ReviewState) (action : Outcome) (card : Flashcard)
    (hc : s.reviewQueue[s.currentCardIndex]? = some card) :
    (handleReviewAction persistOk nodes now s action).2 =
      if s.currentCardIndex < s.reviewQueue.length - 1
      then { s with isFlipped := false, currentCardIndex := s.currentCardIndex + 1 }
      else { s with isFlipped := false, reviewQueue := [] } := by
  simp only [handleReviewAction, hc]
  split <;> rfl

/-- Helper: whenever the current card exists, the node table returned by
`handleReviewAction` is the scheduler's write when the persistence call
succeeds and the unchanged table when it fails. -/
theorem handleReviewAction_fst (persistOk : Bool) (nodes : List NodeRow)
    (now : Int) (s : ReviewState) (action : Outcome) (card : Flashcard)
    (hc : s.reviewQueue[s.currentCardIndex]? = some card) :
    (handleReviewAction persistOk nodes now s action).1 =
      if persistOk
      then dbUpdateNode nodes card.node_id
        (scheduler ((dbFindNode nodes card.node_id).map (·.interval_days))
          action now).nextDueAt
        (scheduler ((dbFindNode nodes card.node_id).map (·.interval_days))
          action now).newIntervalDays
      else nodes := by
  simp only [handleReviewAction, hc]
  split <;> rfl

/-- Claim C3: from a revealed state at a valid cursor, any grade moves to
the next card with the flip flag reset, or, at the last index, empties the
queue (the Complete state). -/
theorem grade_advances_or_completes (persistOk : Bool) (nodes : List NodeRow)
    (now : Int) (s : ReviewState) (action : Outcome)
    (hi : s.currentCardIndex < s.reviewQueue.length)
    (_hrev : s.isFlipped = true) :
    (s.currentCardIndex + 1 < s.reviewQueue.length →
      (handleReviewAction persistOk nodes now s action).2 =
        { reviewQueue := s.reviewQueue,
          currentCardIndex := s.currentCardIndex + 1, isFlipped := false }) ∧
    (s.currentCardIndex + 1 = s.reviewQueue.length →
      (handleReviewAction persistOk nodes now s action).2 =
        { reviewQueue := [],
          currentCardIndex := s.currentCardIndex, isFlipped := false }) := by
  have hsnd := handleReviewAction_snd persistOk nodes now s action
    (s.reviewQueue.get ⟨s.currentCardIndex, hi⟩) (List.getElem?_eq_getElem hi)
  constructor
  · intro hlt
    rw [hsnd, if_pos (by omega)]
  · intro heq
    rw [hsnd, if_neg (by omega)]

/-- Witness for C3: with a two-card queue, grading the revealed first card
advances to the second with the flip flag reset. -/
theorem grade_advances_or_completes_witness :
    0 + 1 < ([sampleEntry, sampleEntry2] : List Flashcard).length ∧
    (handleReviewAction true [sampleNode, sampleNode2] 0
        { reviewQueue := [sampleEntry, sampleEntry2], currentCardIndex := 0,
          isFlipped := true } Outcome.remember).2 =
      { reviewQueue := [sampleEntry, sampleEntry2], currentCardIndex := 1,
        isFlipped := false } :=
  ⟨by decide,
    (grade_advances_or_completes true [sampleNode, sampleNode2] 0
      { reviewQueue := [sampleEntry, sampleEntry2], currentCardIndex := 0,
        isFlipped := true } Outcome.remember (by decide) rfl).1 (by decide)⟩

/-- Claim C4 counterexample: two reveal clicks from `Showing(0, false)` do
not stay at `Showing(0, true)` — the second click toggles the flag back,
so reveal is not idempotent. -/
theorem reveal_not_idempotent :
    ¬ revealClick (revealClick sampleShowingFalse) = revealClick sampleShowingFalse := by
  intro h
  have hflag := congrArg ReviewState.isFlipped h
  simp [revealClick, sampleShowingFalse] at hflag

/-- Claim C4 as amended: on a nonempty queue a reveal click toggles the
flip flag (so one click from `Showing(i, false)` reaches `Showing(i, true)`,
and a second returns to `Showing(i, false)`: an involution, not
idempotent), never moving the cursor or the queue; on an empty queue the
card is not rendered and reveal is a no-op. -/
theorem reveal_toggles (s : ReviewState) :
    (s.reviewQueue ≠ [] →
      (revealClick s).reviewQueue = s.reviewQueue ∧
      (revealClick s).currentCardIndex = s.currentCardIndex ∧
      (revealClick s).isFlipped = !s.isFlipped ∧
      revealClick (revealClick s) = s) ∧
    (s.reviewQueue = [] → revealClick s = s) := by
  constructor
  · intro h
    have hne : s.reviewQueue.isEmpty = false := by
      simp [List.isEmpty_iff, h]
    refine ⟨by simp [revealClick, hne], by simp [revealClick, hne],
      by simp [revealClick, hne], ?_⟩
    simp [revealClick, hne]
  · intro h
    simp [revealClick, h]

/-- Witness for the amended C4 at a concrete one-card unrevealed state. -/
theorem reveal_toggles_witness :
    sampleShowingFalse.reviewQueue ≠ [] ∧
    revealClick (revealClick sampleShowingFalse) = sampleShowingFalse :=
  ⟨by decide, ((reveal_toggles sampleShowingFalse).1 (by decide)).2.2.2⟩

/-- Claim C6: with the card not yet revealed the grade buttons are not
rendered, so a grade event is a silent no-op: neither the session state
nor the node table changes. -/
theorem grade_before_reveal_noop (persistOk : Bool) (nodes : List NodeRow)
    (now : Int) (s : ReviewState) (action : Outcome)
    (h : s.isFlipped = false) :
    gradeClick persistOk nodes now s action = (nodes, s) := by
  simp [gradeClick, h]

/-- Witness for C6 at a concrete unrevealed state. -/
theorem grade_before_reveal_noop_witness :
    gradeClick true [sampleNode] 0 sampleShowingFalse Outcome.remember
      = ([sampleNode], sampleShowingFalse) :=
  grade_before_reveal_noop true [sampleNode] 0 sampleShowingFalse
    Outcome.remember rfl

/-- Claim C7: the session state after a grade (queue, cursor, flip flag)
is the same whether the persistence write succeeds or fails. -/
theorem persistence_failure_invisible (nodes : List NodeRow) (now : Int)
    (s : ReviewState) (action : Outcome) :
    (handleReviewAction true nodes now s action).2
      = (handleReviewAction false nodes now s action).2 := by
  cases hc : s.reviewQueue[s.currentCardIndex]? with
  | none => simp [handleReviewAction, hc]
  | some card =>
      rw [handleReviewAction_snd true nodes now s action card hc,
        handleReviewAction_snd false nodes now s action card hc]

/-- Claim C10: when the interval lookup finds no row or a NULL
`interval_days`, the previous interval is treated as 0, the new interval
is 1 for either outcome, and the session advances exactly as usual. -/
theorem missing_interval_treated_as_zero (persistOk : Bool)
    (nodes : List NodeRow) (now : Int) (s : ReviewState) (action : Outcome)
    (card : Flashcard)
    (hc : s.reviewQueue[s.currentCardIndex]? = some card)
    (hmiss : dbFindNode nodes card.node_id = none ∨
      ∃ r, dbFindNode nodes card.node_id = some r ∧ r.interval_days = none) :
    (scheduler ((dbFindNode nodes card.node_id).map (·.interval_days))
        action now).newIntervalDays = 1 ∧
    (s.currentCardIndex + 1 < s.reviewQueue.length →
      (handleReviewAction persistOk nodes now s action).2 =
        { reviewQueue := s.reviewQueue,
          currentCardIndex := s.currentCardIndex + 1, isFlipped := false }) ∧
    (s.currentCardIndex + 1 = s.reviewQueue.length →
      (handleReviewAction persistOk nodes now s action).2 =
        { reviewQueue := [],
          currentCardIndex := s.currentCardIndex, isFlipped := false }) := by
  have hi : s.currentCardIndex < s.reviewQueue.length := by
    rcases List.getElem?_eq_some.mp hc with ⟨h, _⟩
    exact h
  have hsnd := handleReviewAction_snd persistOk nodes now s action card hc
  refine ⟨?_, ?_, ?_⟩
  · rcases hmiss with h | ⟨r, hr, hnull⟩
    · cases action <;> simp [h, scheduler, nextIntervalDays, jsOrZero]
    · cases action <;> simp [hr, hnull, scheduler, nextIntervalDays, jsOrZero]
  · intro hlt
    rw [hsnd, if_pos (by omega)]
  · intro heq
    rw [hsnd, if_neg (by omega)]

/-- Witness for C10: a queue entry whose node row has a NULL
`interval_days` still yields interval 1 and a normal advance to Complete. -/
theorem missing_interval_treated_as_zero_witness :
    (scheduler ((dbFindNode [sampleNode2] sampleEntry2.node_id).map (·.interval_days))
        Outcome.remember 0).newIntervalDays = 1 ∧
    (handleReviewAction true [sampleNode2] 0
        { reviewQueue := [sampleEntry2], currentCardIndex := 0, isFlipped := true }
        Outcome.remember).2 =
      { reviewQueue := [], currentCardIndex := 0, isFlipped := false } := by
  have h := missing_interval_treated_as_zero true [sampleNode2] 0
    { reviewQueue := [sampleEntry2], currentCardIndex := 0, isFlipped := true }
    Outcome.remember sampleEntry2 rfl
    (Or.inr ⟨sampleNode2, rfl, rfl⟩)
  exact ⟨h.1, h.2.2 (by decide)⟩

/-- Claim C8: the review queue built on entering review mode holds exactly
the fetched cards whose owning node exists and has `next_review_at` at or
before the fetch time (SQL semantics: a NULL `next_review_at` never
qualifies); in particular a card with no resolvable node never enters the
queue. -/
theorem review_queue_exactly_due_cards (nodes : List NodeRow)
    (cards : List CardRow) (now : Int) (s : ReviewState) (c : CardRow) :
    (∃ e ∈ (fetchReviewCards nodes cards now s).reviewQueue, stripEntry e = c) ↔
      (c ∈ cards ∧ ∃ n ∈ nodes, n.id = c.node_id ∧
        sqlLte n.next_review_at now = true) := by
  unfold fetchReviewCards
  by_cases hcards : cards.isEmpty
  · have hnil : cards = [] := List.isEmpty_iff.mp hcards
    subst hnil
    simp
  · rw [if_neg hcards]
    constructor
    · rintro ⟨e, he, hstrip⟩
      rcases List.mem_map.mp he with ⟨c', hc', rfl⟩
      rcases List.mem_filter.mp hc' with ⟨hcm, hp⟩
      have hcc : c' = c := hstrip
      subst hcc
      refine ⟨hcm, ?_⟩
      rcases List.find?_isSome.mp hp with ⟨n, hn, hidn⟩
      rcases List.mem_filter.mp hn with ⟨hnn, hcond⟩
      rw [Bool.and_eq_true] at hcond
      exact ⟨n, hnn, by simpa using hidn, hcond.2⟩
    · rintro ⟨hcm, n, hn, hid, hle⟩
      refine ⟨_, List.mem_map.mpr ⟨c, List.mem_filter.mpr ⟨hcm, ?_⟩, rfl⟩, rfl⟩
      refine List.find?_isSome.mpr ⟨n, List.mem_filter.mpr ⟨hn, ?_⟩, by simpa using hid⟩
      rw [Bool.and_eq_true]
      exact ⟨List.elem_iff.mpr (List.mem_map.mpr ⟨c, hcm, hid.symm⟩), hle⟩

/-- Witness for C8: `sampleCard`'s node is due at time 0, so it reaches
the queue. -/
theorem review_queue_exactly_due_cards_witness :
    ∃ e ∈ (fetchReviewCards [sampleNode] [sampleCard] 0
        { reviewQueue := [], currentCardIndex := 0, isFlipped := false }).reviewQueue,
      stripEntry e = sampleCard :=
  (review_queue_exactly_due_cards [sampleNode] [sampleCard] 0
      { reviewQueue := [], currentCardIndex := 0, isFlipped := false }
      sampleCard).mpr
    ⟨by simp, sampleNode, by simp, rfl, rfl⟩

/-- The `knowledge_nodes` join of a queue entry, when present, carries
`is_mastered = false`. -/
def entryNotMastered (e : Flashcard) : Bool :=
  match e.knowledge_nodes with
  | some k => !k.is_mastered
  | none => true

/-- Helper: the persistence write of a grade rewrites only
`next_review_at` and `interval_days`; the `is_mastered` column of every
row is untouched. -/
theorem dbUpdateNode_is_mastered (nodes : List NodeRow) (nid : Nat)
    (due : Int) (iv : Nat) :
    (dbUpdateNode nodes nid due iv).map NodeRow.is_mastered
      = nodes.map NodeRow.is_mastered := by
  unfold dbUpdateNode
  rw [List.map_map]
  apply List.map_congr_left
  intro n _
  by_cases h : n.id = nid <;> simp [h]

/-- Claim C9: no in-scope operation sets a mastery flag to true — every
queue entry built by the fetch carries `is_mastered = false`, grading
never changes any node's `is_mastered` column, and reveal and grading
leave the queue entries as built (unchanged, or emptied on completion). -/
theorem mastery_never_set_true (nodes : List NodeRow) (cards : List CardRow)
    (now now2 : Int) (s s2 : ReviewState) (persistOk : Bool)
    (action : Outcome) :
    (fetchReviewCards nodes cards now s).reviewQueue.all entryNotMastered = true ∧
    (handleReviewAction persistOk nodes now2 s2 action).1.map NodeRow.is_mastered
      = nodes.map NodeRow.is_mastered ∧
    (revealClick s2).reviewQueue = s2.reviewQueue ∧
    ((handleReviewAction persistOk nodes now2 s2 action).2.reviewQueue
        = s2.reviewQueue ∨
      (handleReviewAction persistOk nodes now2 s2 action).2.reviewQueue = []) := by
  refine ⟨?_, ?_, ?_, ?_⟩
  · rw [List.all_eq_true]
    intro e he
    unfold fetchReviewCards at he
    by_cases hcards : cards.isEmpty
    · rw [if_pos hcards] at he
      simp at he
    · rw [if_neg hcards] at he
      rcases List.mem_map.mp he with ⟨c', _, rfl⟩
      rfl
  · cases hc : s2.reviewQueue[s2.currentCardIndex]? with
    | none => simp [handleReviewAction, hc]
    | some card =>
        rw [handleReviewAction_fst persistOk nodes now2 s2 action card hc]
        cases persistOk
        · rfl
        · simp [dbUpdateNode_is_mastered]
  · unfold revealClick
    split <;> rfl
  · cases hc : s2.reviewQueue[s2.currentCardIndex]? with
    | none =>
        left
        simp [handleReviewAction, hc]
    | some card =>
        rw [handleReviewAction_snd persistOk nodes now2 s2 action card hc]
        split
        · exact Or.inl rfl
        · exact Or.inr rfl

end KnowledgeGalaxy
